import Mathlib

/-
Verification of the fbzmq counter/metrics monitor service and example client.

The monitor service (ZmqMonitor) implementation is not among the visible
sources; only its test (src/service/monitor/tests/ZmqMonitorTest.cpp) is.
Its data model and command dispatch are therefore modelled from the spec
(spec.md §3, §4.1, §4.2, §4.3), as marked on each definition below.
The example client (src/examples/client/ZmqClient.cpp) is visible and
ZmqClient::getKey is embedded from that source directly.
-/

set_option autoImplicit false

namespace Fbzmq

/-- Modelled from the spec: counter names are strings (§3 Counter). -/
abbrev CounterName := String

/-- Modelled from the spec: CounterStore is a mapping name → 64-bit signed
integer value, names unique within a store (§3); modelled as an association
list with upsert-in-place semantics and values in `Int`. -/
abbrev CounterStore := List (CounterName × Int)

/-- Modelled from the spec: lookup of a counter by name; absence of a name is
not an error (§4.1). -/
def lookupCounter : CounterStore → CounterName → Option Int
  | [], _ => none
  | (m, v) :: rest, n => if m = n then some v else lookupCounter rest n

/-- Modelled from the spec: `set(name, value)`: upsert — overwrite in place if
the name exists, append otherwise, never duplicating a name (§3, §4.1). -/
def setCounter : CounterStore → CounterName → Int → CounterStore
  | [], n, v => [(n, v)]
  | (m, w) :: rest, n, v =>
      if m = n then (m, v) :: rest else (m, w) :: setCounter rest n v

/-- Modelled from the spec: `bump(name)`: if present, value += 1; else create
with value = 1 (§4.1). -/
def bumpCounter (s : CounterStore) (n : CounterName) : CounterStore :=
  match lookupCounter s n with
  | some v => setCounter s n (v + 1)
  | none => setCounter s n 1

/-- k consecutive `bumpCounter` operations on the same name. -/
def bumpIter (s : CounterStore) (n : CounterName) : Nat → CounterStore
  | 0 => s
  | k + 1 => bumpCounter (bumpIter s n k) n

/-- Modelled from the spec: `get(names)`: the mapping restricted to requested
names that exist; missing names silently omitted (§4.1). -/
def getCounters (s : CounterStore) (names : List CounterName) :
    List (CounterName × Int) :=
  names.filterMap (fun n => (lookupCounter s n).map (fun v => (n, v)))

/-- Modelled from the spec: `dumpAll()`: full copy of the mapping (§4.1). -/
def dumpAll (s : CounterStore) : List (CounterName × Int) := s

/-- Modelled from the spec: `namesOnly()`: all counter names stored (§4.1). -/
def namesOnly (s : CounterStore) : List CounterName := s.map Prod.fst

/-- Modelled from the spec: the Request union — command discriminant plus
exactly one payload variant (§3, §9). -/
inductive MonitorRequest where
  | setCounterValues (counters : List (CounterName × Int))
  | getCounterValues (counterNames : List CounterName)
  | dumpAllCounterNames
  | dumpAllCounterData
  | bump (counterNames : List CounterName)
  | logEvent (category : String) (samples : List String)
  | unknownCommand
  deriving Repr, DecidableEq

/-- Modelled from the spec: Response — {success, optional counterNames,
optional counters} (§3). -/
structure MonitorResponse where
  success : Bool
  counterNames : Option (List CounterName)
  counters : Option (List (CounterName × Int))
  deriving Repr, DecidableEq

/-- Modelled from the spec: Publication — COUNTER_PUB with a counter mapping,
or EVENT_LOG_PUB with category and ordered samples (§3). -/
inductive MonitorPub where
  | counterPub (counters : List (CounterName × Int))
  | eventLogPub (category : String) (samples : List String)
  deriving Repr, DecidableEq

/-- Modelled from the spec: the CommandDispatcher state machine
`(Request, Store) → (Response, Store', optional Publication)` following the
table of §4.2: mutating commands answer success=true and publish exactly the
touched names with post-operation values; reads answer from the store and
publish nothing; LOG_EVENT republishes category and samples verbatim;
an unrecognized command answers success=false. -/
def processRequest (store : CounterStore) (req : MonitorRequest) :
    MonitorResponse × CounterStore × Option MonitorPub :=
  match req with
  | .setCounterValues cs =>
      let store' := cs.foldl (fun t nv => setCounter t nv.1 nv.2) store
      (⟨true, none, none⟩, store',
        some (.counterPub (getCounters store' (cs.map Prod.fst))))
  | .getCounterValues ns =>
      (⟨true, none, some (getCounters store ns)⟩, store, none)
  | .dumpAllCounterNames =>
      (⟨true, some (namesOnly store), none⟩, store, none)
  | .dumpAllCounterData =>
      (⟨true, none, some (dumpAll store)⟩, store, none)
  | .bump ns =>
      let store' := ns.foldl (fun t n => bumpCounter t n) store
      (⟨true, none, none⟩, store', some (.counterPub (getCounters store' ns)))
  | .logEvent c samples =>
      (⟨true, none, none⟩, store, some (.eventLogPub c samples))
  | .unknownCommand =>
      (⟨false, none, none⟩, store, none)

/-- Modelled from the spec: the MonitorService control loop — receive one
request, dispatch, send one response, forward any produced publication,
repeat (§4.4); responses and publications are collected in production
order. -/
def runService (store : CounterStore) :
    List MonitorRequest → CounterStore × List MonitorResponse × List MonitorPub
  | [] => (store, [], [])
  | r :: rs =>
      let step := processRequest store r
      let rest := runService step.2.1 rs
      (rest.1, step.1 :: rest.2.1, step.2.2.toList ++ rest.2.2)

/-- The store reached after dispatching a list of requests in order. -/
def applyRequests (store : CounterStore) (reqs : List MonitorRequest) :
    CounterStore :=
  reqs.foldl (fun t r => (processRequest t r).2.1) store

/-- Commands of §4.2 that produce a publication. -/
def isMutating : MonitorRequest → Bool
  | .setCounterValues _ => true
  | .bump _ => true
  | .logEvent _ _ => true
  | _ => false

/-- Modelled from the spec: an event on the publish channel — either the
service publishing a record or a subscriber completing its connection
(§4.3, §5). -/
inductive ChanEvent where
  | publish (p : MonitorPub)
  | connect (sub : Nat)
  deriving Repr, DecidableEq

/-- Modelled from the spec: what a given subscriber receives from an ordered
publish channel with no replay buffer — every record published while it is
connected, in production order, and nothing from before its connection
(§4.3). `c` is whether the subscriber is already connected. -/
def receivedBy (s : Nat) : List ChanEvent → Bool → List MonitorPub
  | [], _ => []
  | .connect t :: rest, c => receivedBy s rest (c || t == s)
  | .publish p :: rest, c =>
      if c then p :: receivedBy s rest c else receivedBy s rest c

/-- The records published in a segment of the channel history. -/
def publishedIn : List ChanEvent → List MonitorPub
  | [] => []
  | .publish p :: rest => p :: publishedIn rest
  | .connect _ :: rest => publishedIn rest

/-- Embedded from src/examples/client/ZmqClient.cpp: outcome of
`reqSock.sendThriftObj` (success or error). -/
inductive SendResult where
  | ok
  | err
  deriving Repr, DecidableEq

/-- Embedded from src/examples/client/ZmqClient.cpp: the thrift Response the
client receives — success flag and the returned value. -/
structure ThriftResponse where
  success : Bool
  value : Int
  deriving Repr, DecidableEq

/-- Embedded from src/examples/client/ZmqClient.cpp: outcome of
`reqSock.recvThriftObj<thrift::Response>` (a response or an error). -/
inductive RecvResult where
  | ok (resp : ThriftResponse)
  | err
  deriving Repr, DecidableEq

/-- Embedded from src/examples/client/ZmqClient.cpp lines 147-181:
`ZmqClient::getKey` — send the KEY_GET request; on send error return false;
on receive error return false; if the response's success flag is unset
return false; otherwise assign the response's value to the out-parameter and
return true. The pair returned is (return value, out-parameter after the
call), with `v` the out-parameter's value before the call. -/
def getKey (sendRes : SendResult) (recvRes : RecvResult) (v : Int) :
    Bool × Int :=
  match sendRes with
  | .err => (false, v)
  | .ok =>
      match recvRes with
      | .err => (false, v)
      | .ok response =>
          if !response.success then (false, v)
          else (true, response.value)

/-! ### Store lemmas -/

/-- Looking a name up after a `setCounter` finds the written value at that
name and is unchanged elsewhere. -/
theorem lookupCounter_setCounter (s : CounterStore) (n m : CounterName)
    (v : Int) :
    lookupCounter (setCounter s n v) m =
      if m = n then some v else lookupCounter s m := by
  induction s with
  | nil =>
      by_cases h : m = n
      · subst h; simp [setCounter, lookupCounter]
      · have h' : ¬n = m := fun hh => h hh.symm
        simp [setCounter, lookupCounter, h, h']
  | cons p rest ih =>
      obtain ⟨k, w⟩ := p
      by_cases hk : k = n
      · subst hk
        by_cases hm : m = k
        · subst hm; simp [setCounter, lookupCounter]
        · have hm' : ¬k = m := fun hh => hm hh.symm
          simp [setCounter, lookupCounter, hm, hm']
      · by_cases hkm : k = m
        · subst hkm
          have hn : ¬k = n := hk
          simp [setCounter, lookupCounter, hk, hn]
        · simp [setCounter, lookupCounter, hk, hkm, ih]

/-- Looking a name up after a `bumpCounter`: at the bumped name the value is
the successor of the old one (1 if absent); other names are unchanged. -/
theorem lookupCounter_bumpCounter (s : CounterStore) (n m : CounterName) :
    lookupCounter (bumpCounter s n) m =
      if m = n then
        (match lookupCounter s n with
          | some v => some (v + 1)
          | none => some 1)
      else lookupCounter s m := by
  unfold bumpCounter
  cases h : lookupCounter s n with
  | some v => simp [lookupCounter_setCounter, h]
  | none => simp [lookupCounter_setCounter, h]

/-- Every pair listed by `getCounters` is a genuine binding of the store. -/
theorem mem_getCounters (s : CounterStore) (names : List CounterName)
    (p : CounterName × Int) (hp : p ∈ getCounters s names) :
    p.1 ∈ names ∧ lookupCounter s p.1 = some p.2 := by
  induction names with
  | nil => simp [getCounters] at hp
  | cons n rest ih =>
      simp only [getCounters, List.filterMap_cons] at hp ih
      cases h : lookupCounter s n with
      | none =>
          rw [h] at hp
          have := ih hp
          exact ⟨List.mem_cons_of_mem _ this.1, this.2⟩
      | some v =>
          rw [h] at hp
          rcases List.mem_cons.mp hp with heq | hmem
          · subst heq
            exact ⟨List.mem_cons_self _ _, h⟩
          · have := ih hmem
            exact ⟨List.mem_cons_of_mem _ this.1, this.2⟩

/-- When every requested name is present, `getCounters` lists exactly the
requested names, in order. -/
theorem map_fst_getCounters (s : CounterStore) (names : List CounterName)
    (h : ∀ n ∈ names, (lookupCounter s n).isSome) :
    (getCounters s names).map Prod.fst = names := by
  induction names with
  | nil => simp [getCounters]
  | cons n rest ih =>
      have hn : (lookupCounter s n).isSome := h n (List.mem_cons_self _ _)
      cases hv : lookupCounter s n with
      | none => rw [hv] at hn; simp at hn
      | some v =>
          simp only [getCounters, List.filterMap_cons, hv, Option.map_some,
            List.map_cons]
          exact congrArg (n :: ·)
            (ih (fun m hm => h m (List.mem_cons_of_mem _ hm)))

/-- A present name stays present across a `setCounter`. -/
theorem isSome_lookupCounter_setCounter (s : CounterStore)
    (n m : CounterName) (v : Int) (h : (lookupCounter s m).isSome) :
    (lookupCounter (setCounter s n v) m).isSome := by
  rw [lookupCounter_setCounter]
  by_cases hm : m = n <;> simp [hm, h]

/-- A present name stays present across a fold of `setCounter`. -/
theorem isSome_lookupCounter_foldl_setCounter_of_isSome
    (cs : List (CounterName × Int)) (s : CounterStore) (n : CounterName)
    (h : (lookupCounter s n).isSome) :
    (lookupCounter
      (cs.foldl (fun t nv => setCounter t nv.1 nv.2) s) n).isSome := by
  induction cs generalizing s with
  | nil => simpa using h
  | cons p rest ih =>
      simp only [List.foldl_cons]
      exact ih (setCounter s p.1 p.2)
        (isSome_lookupCounter_setCounter _ _ _ _ h)

/-- After folding `setCounter` over a list of pairs, every name of the list
is present in the store. -/
theorem isSome_lookupCounter_foldl_setCounter (cs : List (CounterName × Int))
    (s : CounterStore) (n : CounterName) (hn : n ∈ cs.map Prod.fst) :
    (lookupCounter
      (cs.foldl (fun t nv => setCounter t nv.1 nv.2) s) n).isSome := by
  induction cs generalizing s with
  | nil => simp at hn
  | cons p rest ih =>
      simp only [List.map_cons, List.mem_cons] at hn
      simp only [List.foldl_cons]
      rcases hn with heq | hmem
      · subst heq
        refine isSome_lookupCounter_foldl_setCounter_of_isSome rest _ _ ?_
        rw [lookupCounter_setCounter]; simp
      · exact ih (setCounter s p.1 p.2) hmem

/-- Folding `setCounter` over a list of pairs leaves names outside the list
untouched. -/
theorem lookupCounter_foldl_setCounter_notMem (cs : List (CounterName × Int))
    (s : CounterStore) (m : CounterName) (hm : m ∉ cs.map Prod.fst) :
    lookupCounter (cs.foldl (fun t nv => setCounter t nv.1 nv.2) s) m =
      lookupCounter s m := by
  induction cs generalizing s with
  | nil => rfl
  | cons p rest ih =>
      simp only [List.map_cons, List.mem_cons, not_or] at hm
      simp only [List.foldl_cons]
      rw [ih _ hm.2, lookupCounter_setCounter]
      simp [hm.1]

/-- Folding `bumpCounter` over a list of names leaves names outside the list
untouched. -/
theorem lookupCounter_foldl_bumpCounter_notMem (ns : List CounterName)
    (s : CounterStore) (m : CounterName) (hm : m ∉ ns) :
    lookupCounter (ns.foldl (fun t n => bumpCounter t n) s) m =
      lookupCounter s m := by
  induction ns generalizing s with
  | nil => rfl
  | cons n rest ih =>
      simp only [List.mem_cons, not_or] at hm
      simp only [List.foldl_cons]
      rw [ih _ hm.2, lookupCounter_bumpCounter]
      simp [hm.1]

/-- A present name stays present across a `bumpCounter`. -/
theorem isSome_lookupCounter_bumpCounter (s : CounterStore)
    (n m : CounterName) (h : (lookupCounter s m).isSome) :
    (lookupCounter (bumpCounter s n) m).isSome := by
  rw [lookupCounter_bumpCounter]
  by_cases hm : m = n
  · cases lookupCounter s n <;> simp [hm]
  · simp [hm, h]

/-- A present name stays present across a fold of `bumpCounter`. -/
theorem isSome_lookupCounter_foldl_bumpCounter_of_isSome
    (ns : List CounterName) (s : CounterStore) (n : CounterName)
    (h : (lookupCounter s n).isSome) :
    (lookupCounter (ns.foldl (fun t m => bumpCounter t m) s) n).isSome := by
  induction ns generalizing s with
  | nil => simpa using h
  | cons m rest ih =>
      simp only [List.foldl_cons]
      exact ih (bumpCounter s m) (isSome_lookupCounter_bumpCounter _ _ _ h)

/-- After folding `bumpCounter` over a list of names, every name of the list
is present in the store. -/
theorem isSome_lookupCounter_foldl_bumpCounter (ns : List CounterName)
    (s : CounterStore) (n : CounterName) (hn : n ∈ ns) :
    (lookupCounter (ns.foldl (fun t m => bumpCounter t m) s) n).isSome := by
  induction ns generalizing s with
  | nil => simp at hn
  | cons m rest ih =>
      simp only [List.mem_cons] at hn
      simp only [List.foldl_cons]
      rcases hn with heq | hmem
      · subst heq
        refine isSome_lookupCounter_foldl_bumpCounter_of_isSome rest _ n ?_
        rw [lookupCounter_bumpCounter]
        cases lookupCounter s n <;> simp
      · exact ih (bumpCounter s m) hmem

/-! ### Service-loop lemmas -/

/-- The loop answers every request with exactly one response. -/
theorem length_runService_responses (store : CounterStore)
    (reqs : List MonitorRequest) :
    ((runService store reqs).2.1).length = reqs.length := by
  induction reqs generalizing store with
  | nil => rfl
  | cons r rs ih => simp [runService, ih]

/-- A mutating command always produces a publication. -/
theorem isSome_processRequest_pub (store : CounterStore)
    (r : MonitorRequest) (h : isMutating r = true) :
    ((processRequest store r).2.2).isSome := by
  cases r <;> simp [processRequest, isMutating] at h ⊢

/-- A sequence of mutating commands produces one publication each. -/
theorem length_runService_pubs (store : CounterStore)
    (reqs : List MonitorRequest) (h : ∀ r ∈ reqs, isMutating r = true) :
    ((runService store reqs).2.2).length = reqs.length := by
  induction reqs generalizing store with
  | nil => rfl
  | cons r rs ih =>
      have hr := h r (List.mem_cons_self _ _)
      have hp := isSome_processRequest_pub store r hr
      cases hpv : (processRequest store r).2.2 with
      | none => rw [hpv] at hp; simp at hp
      | some p =>
          simp [runService, hpv,
            ih (processRequest store r).2.1
              (fun q hq => h q (List.mem_cons_of_mem _ hq))]

/-- The i-th publication of the loop is exactly the publication produced by
the i-th command, dispatched in the store state reached after the first i
commands. -/
theorem runService_pubs_getElem (store : CounterStore)
    (reqs : List MonitorRequest) (h : ∀ r ∈ reqs, isMutating r = true)
    (i : Nat) (hi : i < reqs.length) :
    ((runService store reqs).2.2)[i]? =
      (processRequest (applyRequests store (reqs.take i))
        (reqs.get ⟨i, hi⟩)).2.2 := by
  induction reqs generalizing store i with
  | nil => simp at hi
  | cons r rs ih =>
      have hr := h r (List.mem_cons_self _ _)
      have hp := isSome_processRequest_pub store r hr
      cases hpv : (processRequest store r).2.2 with
      | none => rw [hpv] at hp; simp at hp
      | some p =>
          cases i with
          | zero =>
              simp [runService, hpv, applyRequests]
          | succ j =>
              have hj : j < rs.length := Nat.lt_of_succ_lt_succ hi
              have := ih (processRequest store r).2.1
                (fun q hq => h q (List.mem_cons_of_mem _ hq)) j hj
              simpa [runService, hpv, applyRequests] using this

/-! ### Publish-channel lemmas -/

/-- A connected subscriber receives every published record, in order. -/
theorem receivedBy_connected (s : Nat) (evs : List ChanEvent) :
    receivedBy s evs true = publishedIn evs := by
  induction evs with
  | nil => rfl
  | cons e rest ih =>
      cases e with
      | publish p => simp [receivedBy, publishedIn, ih]
      | connect t => simp [receivedBy, publishedIn, ih]

/-- A subscriber that never connects receives nothing. -/
theorem receivedBy_not_connected (s : Nat) (evs : List ChanEvent)
    (h : ChanEvent.connect s ∉ evs) : receivedBy s evs false = [] := by
  induction evs with
  | nil => rfl
  | cons e rest ih =>
      simp only [List.mem_cons, not_or] at h
      cases e with
      | publish p => simpa [receivedBy] using ih h.2
      | connect t =>
          have hts : (t == s) = false := by
            refine beq_eq_false_iff_ne.mpr (fun hts => ?_)
            exact h.1 (by rw [hts])
          simpa [receivedBy, hts] using ih h.2

/-- A subscriber connecting mid-history receives exactly the records
published after its connection. -/
theorem receivedBy_append_connect (s : Nat) (pre post : List ChanEvent)
    (h : ChanEvent.connect s ∉ pre) :
    receivedBy s (pre ++ ChanEvent.connect s :: post) false =
      publishedIn post := by
  induction pre with
  | nil => simp [receivedBy, receivedBy_connected]
  | cons e rest ih =>
      simp only [List.mem_cons, not_or] at h
      cases e with
      | publish p => simpa [receivedBy] using ih h.2
      | connect t =>
          have hts : (t == s) = false := by
            refine beq_eq_false_iff_ne.mpr (fun hts => ?_)
            exact h.1 (by rw [hts])
          simpa [receivedBy, hts] using ih h.2

/-! ### Claims -/

/-- C1: every COUNTER_PUB carries exactly the counters named in the
triggering SET_COUNTER_VALUES or BUMP_COUNTER request, with their
post-operation values, and no other counters from the store; in particular,
with a store holding bar and foo, a SET_COUNTER_VALUES for {foobar:9012}
publishes counterPub = {foobar:9012} only. -/
theorem c1_counterPub_exact (store : CounterStore)
    (cs : List (CounterName × Int)) (ns : List CounterName) :
    (∀ ps, (processRequest store (.setCounterValues cs)).2.2 =
        some (.counterPub ps) →
      ps.map Prod.fst = cs.map Prod.fst ∧
      ∀ p ∈ ps,
        lookupCounter (processRequest store (.setCounterValues cs)).2.1 p.1 =
          some p.2) ∧
    (∀ ps, (processRequest store (.bump ns)).2.2 = some (.counterPub ps) →
      ps.map Prod.fst = ns ∧
      ∀ p ∈ ps,
        lookupCounter (processRequest store (.bump ns)).2.1 p.1 =
          some p.2) ∧
    (processRequest [("bar", 1234), ("foo", 5678)]
        (.setCounterValues [("foobar", 9012)])).2.2 =
      some (.counterPub [("foobar", 9012)]) := by
  refine ⟨?_, ?_, by decide⟩
  · intro ps hps
    simp only [processRequest, MonitorPub.counterPub.injEq,
      Option.some.injEq] at hps
    subst hps
    constructor
    · exact map_fst_getCounters _ _ (by
        intro n hn
        exact isSome_lookupCounter_foldl_setCounter cs store n hn)
    · intro p hp
      exact (mem_getCounters _ _ p hp).2
  · intro ps hps
    simp only [processRequest, MonitorPub.counterPub.injEq,
      Option.some.injEq] at hps
    subst hps
    constructor
    · exact map_fst_getCounters _ _ (by
        intro n hn
        exact isSome_lookupCounter_foldl_bumpCounter ns store n hn)
    · intro p hp
      exact (mem_getCounters _ _ p hp).2

/-- Witness for C1 at the spec's concrete instance: after SET_COUNTER_VALUES
for {foobar:9012} on a store holding bar and foo, the published counter
foobar carries value 9012 in the post-operation store. -/
theorem c1_counterPub_exact_witness :
    lookupCounter (processRequest [("bar", 1234), ("foo", 5678)]
        (MonitorRequest.setCounterValues [("foobar", 9012)])).2.1 "foobar" =
      some 9012 :=
  ((c1_counterPub_exact [("bar", 1234), ("foo", 5678)] [("foobar", 9012)]
      []).1 [("foobar", 9012)] (by decide)).2 ("foobar", 9012) (by decide)

/-- C2: every exchange on the reply channel is one request in, one response
out — the loop emits exactly one response per request — and
SET_COUNTER_VALUES, BUMP_COUNTER and LOG_EVENT are all answered with
success=true. -/
theorem c2_one_response_per_request (store : CounterStore)
    (reqs : List MonitorRequest) (cs : List (CounterName × Int))
    (ns : List CounterName) (c : String) (samples : List String) :
    ((runService store reqs).2.1).length = reqs.length ∧
    (processRequest store (.setCounterValues cs)).1.success = true ∧
    (processRequest store (.bump ns)).1.success = true ∧
    (processRequest store (.logEvent c samples)).1.success = true :=
  ⟨length_runService_responses store reqs, rfl, rfl, rfl⟩

/-- C3: bump on an absent name creates it with value 1, bump on a present
name increments it by exactly 1, and after k consecutive bumps of an
initially-absent name its value is exactly k. -/
theorem c3_bump_semantics (s : CounterStore) (n : CounterName) (v : Int)
    (k : Nat) :
    (lookupCounter s n = none →
      lookupCounter (bumpCounter s n) n = some 1) ∧
    (lookupCounter s n = some v →
      lookupCounter (bumpCounter s n) n = some (v + 1)) ∧
    (lookupCounter s n = none →
      lookupCounter (bumpIter s n k) n =
        if k = 0 then none else some (k : Int)) := by
  refine ⟨?_, ?_, ?_⟩
  · intro h
    rw [lookupCounter_bumpCounter]
    simp [h]
  · intro h
    rw [lookupCounter_bumpCounter]
    simp [h]
  · intro h
    induction k with
    | zero => simpa [bumpIter] using h
    | succ j ihj =>
        simp only [bumpIter, lookupCounter_bumpCounter, if_pos rfl]
        rw [ihj]
        cases j with
        | zero => simp
        | succ i =>
            simp only [Nat.succ_ne_zero, if_false]
            push_cast
            ring_nf

/-- Witness for C3: three consecutive bumps of "x" on the empty store leave
it at value 3. -/
theorem c3_bump_semantics_witness :
    lookupCounter (bumpIter [] "x" 3) "x" = some 3 :=
  (c3_bump_semantics [] "x" 0 3).2.2 rfl

/-- C4: for every name n and value v, set(n,v) via SET_COUNTER_VALUES
followed by get({n}) via GET_COUNTER_VALUES returns the mapping {n: v}. -/
theorem c4_set_then_get (s : CounterStore) (n : CounterName) (v : Int) :
    ((processRequest
        (processRequest s (.setCounterValues [(n, v)])).2.1
        (.getCounterValues [n])).1).counters = some [(n, v)] := by
  simp [processRequest, getCounters, lookupCounter_setCounter]

/-- C5: on a store mapping bar to 1234 and foo to 5678 with no baz, a
BUMP_COUNTER for {bar, foo, baz} leaves those counters at 1235, 5679 and 1,
leaves every other counter unchanged, and publishes exactly those three
names with those post-bump values. -/
theorem c5_bump_scenario (store : CounterStore)
    (hbar : lookupCounter store "bar" = some 1234)
    (hfoo : lookupCounter store "foo" = some 5678)
    (hbaz : lookupCounter store "baz" = none) :
    lookupCounter (processRequest store
        (.bump ["bar", "foo", "baz"])).2.1 "bar" = some 1235 ∧
    lookupCounter (processRequest store
        (.bump ["bar", "foo", "baz"])).2.1 "foo" = some 5679 ∧
    lookupCounter (processRequest store
        (.bump ["bar", "foo", "baz"])).2.1 "baz" = some 1 ∧
    (∀ m, m ≠ "bar" → m ≠ "foo" → m ≠ "baz" →
      lookupCounter (processRequest store
          (.bump ["bar", "foo", "baz"])).2.1 m = lookupCounter store m) ∧
    (processRequest store (.bump ["bar", "foo", "baz"])).2.2 =
      some (.counterPub [("bar", 1235), ("foo", 5679), ("baz", 1)]) := by
  have hb : lookupCounter
      (bumpCounter (bumpCounter (bumpCounter store "bar") "foo") "baz")
      "bar" = some 1235 := by
    simp [lookupCounter_bumpCounter, hbar]
  have hf : lookupCounter
      (bumpCounter (bumpCounter (bumpCounter store "bar") "foo") "baz")
      "foo" = some 5679 := by
    simp [lookupCounter_bumpCounter, hfoo]
  have hz : lookupCounter
      (bumpCounter (bumpCounter (bumpCounter store "bar") "foo") "baz")
      "baz" = some 1 := by
    simp [lookupCounter_bumpCounter, hbaz]
  refine ⟨?_, ?_, ?_, ?_, ?_⟩
  · simpa [processRequest] using hb
  · simpa [processRequest] using hf
  · simpa [processRequest] using hz
  · intro m hm1 hm2 hm3
    simp [processRequest, lookupCounter_bumpCounter, hm1, hm2, hm3]
  · simp [processRequest, getCounters, hb, hf, hz]

/-- Witness for C5 at the concrete store of the test: {bar:1234, foo:5678}. -/
theorem c5_bump_scenario_witness :
    (processRequest [("bar", 1234), ("foo", 5678)]
        (MonitorRequest.bump ["bar", "foo", "baz"])).2.2 =
      some (.counterPub [("bar", 1235), ("foo", 5679), ("baz", 1)]) :=
  (c5_bump_scenario [("bar", 1234), ("foo", 5678)]
      (by decide) (by decide) (by decide)).2.2.2.2

/-- C6: DUMP_ALL_COUNTER_DATA returns the complete mapping of stored
counters, DUMP_ALL_COUNTER_NAMES returns exactly the stored names, and
neither command mutates the store or produces a publication. -/
theorem c6_dump_commands (s : CounterStore) :
    processRequest s .dumpAllCounterData =
      (⟨true, none, some s⟩, s, none) ∧
    processRequest s .dumpAllCounterNames =
      (⟨true, some (s.map Prod.fst), none⟩, s, none) :=
  ⟨rfl, rfl⟩

/-- C7: LOG_EVENT produces an EVENT_LOG_PUB publication carrying the
request's category and samples verbatim and in order, answers success=true,
and leaves the counter store unchanged; in particular for category
"log_category" with samples ["log1","log2"]. -/
theorem c7_log_event (s : CounterStore) (c : String)
    (samples : List String) :
    processRequest s (.logEvent c samples) =
      (⟨true, none, none⟩, s, some (.eventLogPub c samples)) ∧
    processRequest s (.logEvent "log_category" ["log1", "log2"]) =
      (⟨true, none, none⟩, s,
        some (.eventLogPub "log_category" ["log1", "log2"])) :=
  ⟨rfl, rfl⟩

/-- C8: a sequence of N mutating commands produces exactly N publications,
the i-th publication is the one produced by the i-th command, and a
subscriber connected from the start observes the publication stream exactly
as produced. -/
theorem c8_pubs_in_order (store : CounterStore)
    (reqs : List MonitorRequest) (sub : Nat)
    (h : ∀ r ∈ reqs, isMutating r = true) :
    ((runService store reqs).2.2).length = reqs.length ∧
    (∀ i (hi : i < reqs.length),
      ((runService store reqs).2.2)[i]? =
        (processRequest (applyRequests store (reqs.take i))
          (reqs.get ⟨i, hi⟩)).2.2) ∧
    receivedBy sub
      (ChanEvent.connect sub ::
        ((runService store reqs).2.2).map ChanEvent.publish) false =
      (runService store reqs).2.2 := by
  refine ⟨length_runService_pubs store reqs h,
    fun i hi => runService_pubs_getElem store reqs h i hi, ?_⟩
  have hc : receivedBy sub
      (((runService store reqs).2.2).map ChanEvent.publish) true =
      publishedIn (((runService store reqs).2.2).map ChanEvent.publish) :=
    receivedBy_connected sub _
  have hpub : ∀ ps : List MonitorPub,
      publishedIn (ps.map ChanEvent.publish) = ps := by
    intro ps
    induction ps with
    | nil => rfl
    | cons p rest ih => simp [publishedIn, ih]
  simpa [receivedBy, hpub] using hc

/-- Witness for C8: three mutating commands on the empty store produce three
publications. -/
theorem c8_pubs_in_order_witness :
    ((runService []
        [MonitorRequest.setCounterValues [("a", 1)],
         MonitorRequest.bump ["a"],
         MonitorRequest.logEvent "c" ["x"]]).2.2).length = 3 :=
  (c8_pubs_in_order []
      [MonitorRequest.setCounterValues [("a", 1)],
       MonitorRequest.bump ["a"],
       MonitorRequest.logEvent "c" ["x"]] 0 (by decide)).1

/-- C9: a subscriber whose connection completes after some prefix of the
channel history receives exactly the publications emitted after its
connection — in particular it never receives a publication emitted before
it connected. -/
theorem c9_no_replay (sub : Nat) (pre post : List ChanEvent)
    (h : ChanEvent.connect sub ∉ pre) :
    receivedBy sub (pre ++ ChanEvent.connect sub :: post) false =
      publishedIn post ∧
    ∀ p : MonitorPub, p ∉ publishedIn post →
      p ∉ receivedBy sub (pre ++ ChanEvent.connect sub :: post) false := by
  have heq := receivedBy_append_connect sub pre post h
  exact ⟨heq, fun p hp => by rw [heq]; exact hp⟩

/-- Witness for C9: a subscriber connecting after one publication, with
nothing published afterwards, receives nothing. -/
theorem c9_no_replay_witness :
    receivedBy 0
      ([ChanEvent.publish (MonitorPub.eventLogPub "a" [])] ++
        ChanEvent.connect 0 :: []) false = publishedIn [] :=
  (c9_no_replay 0 [ChanEvent.publish (MonitorPub.eventLogPub "a" [])] []
      (by decide)).1

/-- C10: ZmqClient::getKey returns true and assigns the response's value to
its out-parameter exactly when the send succeeds, the receive succeeds and
the received Response has success=true; on any failure it returns false and
leaves the out-parameter unchanged. -/
theorem c10_getKey (sr : SendResult) (rr : RecvResult) (v : Int) :
    ((getKey sr rr v).1 = true ↔
      sr = SendResult.ok ∧
        ∃ resp, rr = RecvResult.ok resp ∧ resp.success = true) ∧
    ((getKey sr rr v).1 = false → (getKey sr rr v).2 = v) ∧
    (∀ resp, sr = SendResult.ok → rr = RecvResult.ok resp →
      resp.success = true → getKey sr rr v = (true, resp.value)) := by
  cases sr with
  | err => simp [getKey]
  | ok =>
      cases rr with
      | err => simp [getKey]
      | ok resp =>
          by_cases hs : resp.success = true
          · simp [getKey, hs]
          · have hs' : resp.success = false := by
              simpa using hs
            simp [getKey, hs']

/-- Witness for C10: a successful exchange with success=true and value 42
returns true and writes 42 over an out-parameter initially 0. -/
theorem c10_getKey_witness :
    getKey SendResult.ok (RecvResult.ok ⟨true, 42⟩) 0 = (true, 42) :=
  (c10_getKey SendResult.ok (RecvResult.ok ⟨true, 42⟩) 0).2.2
    ⟨true, 42⟩ rfl rfl rfl

end Fbzmq
